import Mathlib

/-!
Verification of the resource aggregation and ranking engine
(`ResourceAggregator` in `resourceAggregator.ts`, together with the request
shape of `GooglePlacesService` in `googlePlaces.ts`).

Modelling conventions:
* JS numbers are idealised as real numbers (`ℝ`); all claims settled here are
  structural (filtering, ordering, deduplication, truncation) and do not
  depend on floating-point rounding.
* The external places provider is an oracle
  `PlaceSearchRequest → Except ProviderError (List PlaceResult)`; a thrown
  `ProviderError` is the `Except.error` case, and the `try/catch` blocks of
  `searchResources` are the corresponding `match` handlers.
* JS `Array.prototype.sort` is stable (ES2019), modelled by `List.mergeSort`.
* The transient `relevanceScore` property added by object spread before the
  per-batch sort is modelled as the second component of a pair; it is dropped
  when the batch is appended to the accumulator, since no later stage reads it.
-/

/-- A latitude/longitude pair in degrees, as the `{lat, lng}` objects of the source. -/
structure LatLng where
  lat : ℝ
  lng : ℝ

/-- `SearchFilters` from `resourceAggregator.ts`: the caller's location, radius
in miles, category list and optional keyword. -/
structure SearchFilters where
  location : LatLng
  radius : ℝ
  categories : List String
  keyword : Option String

/-- `PlaceResult` from `googlePlaces.ts`: a normalized raw provider record.
It has no distance field. -/
structure PlaceResult where
  placeId : String
  name : String
  address : String
  location : LatLng
  rating : Option ℝ
  priceLevel : Option ℝ
  phone : Option String
  website : Option String
  photoUrl : Option String
  openNow : Option Bool
  types : List String

/-- `PlaceSearchRequest` from `googlePlaces.ts`: one provider query, radius in meters. -/
structure PlaceSearchRequest where
  location : LatLng
  radius : ℝ
  types : List String
  keyword : Option String

/-- A provider failure (non-success status or transport error), carrying
diagnostics; corresponds to the error thrown by `searchNearby`. -/
structure ProviderError where
  status : String
  message : String

/-- The external places provider, abstracted as an oracle from requests to
either a thrown `ProviderError` or a list of raw records. -/
def SearchProvider : Type :=
  PlaceSearchRequest → Except ProviderError (List PlaceResult)

/-- The provenance tag of `AggregatedResult.source`. -/
inductive Source where
  | google_places : Source
  | curated : Source
deriving DecidableEq

/-- `AggregatedResult` from `resourceAggregator.ts`. -/
structure AggregatedResult where
  placeId : String
  name : String
  category : String
  address : String
  location : LatLng
  distance : ℝ
  rating : Option ℝ
  phone : Option String
  website : Option String
  photoUrl : Option String
  source : Source

/-- Does the second character list start with the first? Helper for JS `String.includes`. -/
def listStartsWith : List Char → List Char → Bool
  | [], _ => true
  | _ :: _, [] => false
  | p :: ps, c :: cs => p == c && listStartsWith ps cs

/-- Does `pat` occur as a contiguous run inside the second list? -/
def listHasSub (pat : List Char) : List Char → Bool
  | [] => listStartsWith pat []
  | c :: cs => listStartsWith pat (c :: cs) || listHasSub pat cs

/-- JS `haystack.includes(pat)`: `pat` occurs as a contiguous substring. -/
def strIncl (hay pat : String) : Bool :=
  listHasSub pat.data hay.data

/-- JS `place.types?.join(' ').toLowerCase() || ''` from `calculateRelevanceScore`:
an absent `types` property yields the empty string. -/
def typesString (types : Option (List String)) : String :=
  match types with
  | none => ""
  | some ts => (String.intercalate " " ts).toLower

/-- The fields `calculateRelevanceScore` actually reads from its dynamically
typed argument: `name`, and `types` when the property is present. An
`AggregatedResult` has no `types` property, so calls on converted results
pass `none`. -/
structure ScoredRecord where
  name : String
  types : Option (List String)

/-- `ResourceAggregator.calculateRelevanceScore`: the additive keyword/type
heuristic, sequentially accumulated exactly as in the source. -/
def calculateRelevanceScore (place : ScoredRecord) : ℤ :=
  let name := place.name.toLower
  let types := typesString place.types
  let score : ℤ := 0
  let score := if strIncl name "down syndrome" || strIncl name "developmental disabilit" then score + 10 else score
  let score := if strIncl name "special needs" || strIncl name "inclusion" then score + 8 else score
  let score := if strIncl name "adaptive" || strIncl name "therapeutic" then score + 6 else score
  let score := if strIncl name "children" || strIncl name "pediatric" then score + 4 else score
  let score := if strIncl types "health" || strIncl types "doctor" || strIncl types "hospital" then score + 3 else score
  let score := if strIncl types "school" || strIncl types "education" then score + 3 else score
  let score := if strIncl types "community" then score + 2 else score
  let score := if strIncl name "planet fitness" || strIncl name "la fitness" then score - 5 else score
  let score := if strIncl name "mcdonalds" || strIncl name "starbucks" then score - 10 else score
  let score := if strIncl types "gas_station" || strIncl types "convenience_store" then score - 5 else score
  score

/-- The scorer argument built from a converted `AggregatedResult` at the call
site in `searchResources` (no `types` property). -/
def AggregatedResult.toScored (r : AggregatedResult) : ScoredRecord :=
  { name := r.name, types := none }

/-- `GooglePlacesService.getCategoryTypes`: maps an abstract category to the
provider place types; unknown categories fall back to the `other` entry. -/
def getCategoryTypes (category : String) : List String :=
  let key := category.toLower
  if key = "medical" then ["doctor", "hospital"]
  else if key = "therapy" then ["physiotherapist", "health"]
  else if key = "education" then ["school", "library"]
  else if key = "support" then ["community_center", "local_government_office"]
  else if key = "recreation" then ["gym", "park"]
  else ["establishment"]

/-- `ResourceAggregator.formatCategoryName`: capitalise the first character. -/
def formatCategoryName (category : String) : String :=
  match category.data with
  | [] => ""
  | c :: cs => String.mk (c.toUpper :: cs)

/-- `ResourceAggregator.toRad`: degrees to radians. -/
noncomputable def toRad (degrees : ℝ) : ℝ :=
  degrees * (Real.pi / 180)

/-- JS `Math.atan2` on real arguments (signed zeros and NaN are not modelled;
in `calculateDistance` both arguments are square roots, hence nonnegative). -/
noncomputable def atan2 (y x : ℝ) : ℝ :=
  if 0 < x then Real.arctan (y / x)
  else if x < 0 then
    (if 0 ≤ y then Real.arctan (y / x) + Real.pi else Real.arctan (y / x) - Real.pi)
  else
    (if 0 < y then Real.pi / 2 else if y < 0 then -(Real.pi / 2) else 0)

/-- `ResourceAggregator.calculateDistance`: haversine great-circle distance
with Earth radius 3959 miles, inputs in degrees. -/
noncomputable def calculateDistance (point1 point2 : LatLng) : ℝ :=
  let R : ℝ := 3959
  let dLat := toRad (point2.lat - point1.lat)
  let dLng := toRad (point2.lng - point1.lng)
  let a := Real.sin (dLat / 2) * Real.sin (dLat / 2) +
    Real.cos (toRad point1.lat) * Real.cos (toRad point2.lat) *
    Real.sin (dLng / 2) * Real.sin (dLng / 2)
  let c := 2 * atan2 (Real.sqrt a) (Real.sqrt (1 - a))
  R * c

/-- `ResourceAggregator.convertToAggregatedResult`: build the output record,
computing `distance` from the user location, never from the provider record. -/
noncomputable def convertToAggregatedResult (place : PlaceResult) (category : String)
    (userLocation : LatLng) : AggregatedResult :=
  { placeId := place.placeId
    name := place.name
    category := formatCategoryName category
    address := place.address
    location := place.location
    distance := calculateDistance userLocation place.location
    rating := place.rating
    phone := place.phone
    website := place.website
    photoUrl := place.photoUrl
    source := Source.google_places }

/-- The `seen`-set filter loop of `ResourceAggregator.removeDuplicates`,
with the set represented as the list of already-kept place ids. -/
def removeDuplicatesAux (seen : List String) : List AggregatedResult → List AggregatedResult
  | [] => []
  | result :: rest =>
    if result.placeId ∈ seen then removeDuplicatesAux seen rest
    else result :: removeDuplicatesAux (result.placeId :: seen) rest

/-- `ResourceAggregator.removeDuplicates`: keep each record whose `placeId`
has not been seen yet. -/
def removeDuplicates (results : List AggregatedResult) : List AggregatedResult :=
  removeDuplicatesAux [] results


/-- The stable ascending-by-distance order used by the final sort
(JS comparator `(a, b) => a.distance - b.distance`). -/
noncomputable def distanceLE (a b : AggregatedResult) : Bool :=
  decide (a.distance ≤ b.distance)

/-- The stable descending-by-score order used by the per-batch relevance sort
(JS comparator `(a, b) => b.relevanceScore - a.relevanceScore`). -/
def scoreGE (a b : AggregatedResult × ℤ) : Bool :=
  decide (b.2 ≤ a.2)

/-- The fixed keyword sent with every provider request by `searchResources`. -/
def aggregatorKeyword : String :=
  "Down syndrome developmental disabilities special needs"

/-- The body of the inner `for (const placeType of placesTypes)` loop of
`searchResources`: issue one provider query, convert, filter by true distance,
score and filter by relevance, sort the batch descending by score. A thrown
`ProviderError` is caught (`catch (typeError)`) and contributes nothing. -/
noncomputable def processType (filters : SearchFilters) (radiusMeters : ℝ)
    (provider : SearchProvider) (category : String) (placeType : String) :
    List AggregatedResult :=
  let placesRequest : PlaceSearchRequest :=
    { location := filters.location
      radius := radiusMeters
      types := [placeType]
      keyword := some aggregatorKeyword }
  match provider placesRequest with
  | Except.error _ => []
  | Except.ok places =>
    let aggregatedPlaces := places.map
      (fun place => convertToAggregatedResult place category filters.location)
    let filteredPlaces := aggregatedPlaces.filter
      (fun place => decide (place.distance ≤ filters.radius))
    let relevantPlaces :=
      (((filteredPlaces.map
          (fun place => (place, calculateRelevanceScore place.toScored))).filter
        (fun place => decide (0 < place.2))).mergeSort scoreGE)
    relevantPlaces.map Prod.fst

/-- The body of the outer `for (const category of filters.categories)` loop:
run every place type of the category and concatenate the batches. -/
noncomputable def processCategory (filters : SearchFilters) (radiusMeters : ℝ)
    (provider : SearchProvider) (category : String) : List AggregatedResult :=
  (getCategoryTypes category).flatMap
    (fun placeType => processType filters radiusMeters provider category placeType)

/-- `ResourceAggregator.searchResources`: clamp the radius to meters, run all
category × place-type queries, deduplicate, sort ascending by distance, and
truncate to the top 10. -/
noncomputable def searchResources (filters : SearchFilters)
    (provider : SearchProvider) : List AggregatedResult :=
  let radiusMeters := min (filters.radius * 1609.34) 25000
  let allResults := filters.categories.flatMap
    (fun category => processCategory filters radiusMeters provider category)
  let uniqueResults := removeDuplicates allResults
  let sortedResults := uniqueResults.mergeSort distanceLE
  sortedResults.take 10

/-- The list of provider requests issued by `searchResources filters`, one per
category × place-type combination, in issue order. -/
noncomputable def requestsOf (filters : SearchFilters) : List PlaceSearchRequest :=
  filters.categories.flatMap (fun category =>
    (getCategoryTypes category).map (fun placeType =>
      { location := filters.location
        radius := min (filters.radius * 1609.34) 25000
        types := [placeType]
        keyword := some aggregatorKeyword }))

lemma removeDuplicatesAux_sublist (seen : List String) (xs : List AggregatedResult) :
    List.Sublist (removeDuplicatesAux seen xs) xs := by
  induction xs generalizing seen with
  | nil => simp [removeDuplicatesAux]
  | cons x xs ih =>
    rw [removeDuplicatesAux]
    split
    · exact (ih seen).cons x
    · exact (ih _).cons₂ x

lemma mem_searchResources {f : SearchFilters} {p : SearchProvider}
    {r : AggregatedResult} (h : r ∈ searchResources f p) :
    ∃ c ∈ f.categories, ∃ t ∈ getCategoryTypes c,
      r ∈ processType f (min (f.radius * 1609.34) 25000) p c t := by
  simp only [searchResources] at h
  have h1 := List.take_subset _ _ h
  rw [List.mem_mergeSort] at h1
  have h2 := (removeDuplicatesAux_sublist [] _).subset h1
  rw [List.mem_flatMap] at h2
  obtain ⟨c, hc, hr⟩ := h2
  rw [processCategory, List.mem_flatMap] at hr
  obtain ⟨t, ht, hr⟩ := hr
  exact ⟨c, hc, t, ht, hr⟩

lemma mem_processType {f : SearchFilters} {rm : ℝ} {p : SearchProvider}
    {c t : String} {r : AggregatedResult}
    (h : r ∈ processType f rm p c t) :
    r.distance ≤ f.radius ∧ 0 < calculateRelevanceScore r.toScored ∧
      r.source = Source.google_places ∧
      r.distance = calculateDistance f.location r.location := by
  rw [processType] at h
  split at h
  · simp at h
  · simp only [List.mem_map] at h
    obtain ⟨⟨a, s⟩, ha, rfl⟩ := h
    rw [List.mem_mergeSort, List.mem_filter] at ha
    obtain ⟨hmem, hpos⟩ := ha
    simp only [decide_eq_true_eq] at hpos
    simp only [List.mem_map, List.mem_filter, decide_eq_true_eq] at hmem
    obtain ⟨pl, ⟨hplmem, hdist⟩, heq⟩ := hmem
    injection heq with h1 h2
    subst h1
    subst h2
    obtain ⟨pr, hpr, rfl⟩ := hplmem
    exact ⟨hdist, hpos, rfl, rfl⟩

lemma distanceLE_trans (a b c : AggregatedResult) :
    distanceLE a b → distanceLE b c → distanceLE a c := by
  simp only [distanceLE, decide_eq_true_eq]
  exact le_trans

lemma distanceLE_total (a b : AggregatedResult) :
    distanceLE a b || distanceLE b a := by
  simp only [distanceLE, Bool.or_eq_true, decide_eq_true_eq]
  exact le_total a.distance b.distance

/-- C1: every `AggregatedResult` in the list returned by
`searchResources filters` has `distance ≤ filters.radius`, for every filter
input and every behaviour of the provider. -/
theorem searchResources_radius_invariant (f : SearchFilters) (p : SearchProvider) :
    (searchResources f p).Forall (fun r => r.distance ≤ f.radius) := by
  rw [List.forall_iff_forall_mem]
  intro r hr
  obtain ⟨c, _, t, _, hrt⟩ := mem_searchResources hr
  exact (mem_processType hrt).1

/-- C4: every result in the `searchResources` output passed the strict
relevance gate: `calculateRelevanceScore` applied to it (as at the call site,
where the converted record carries no `types` property) is strictly positive. -/
theorem searchResources_relevance_invariant (f : SearchFilters) (p : SearchProvider) :
    (searchResources f p).Forall (fun r => 0 < calculateRelevanceScore r.toScored) := by
  rw [List.forall_iff_forall_mem]
  intro r hr
  obtain ⟨c, _, t, _, hrt⟩ := mem_searchResources hr
  exact (mem_processType hrt).2.1

/-- The haversine great-circle distance as stated in the specification:
Earth radius 3959 miles, inputs in degrees, squared half-angle sines. -/
noncomputable def haversineSpec (a b : LatLng) : ℝ :=
  let dLat := toRad (b.lat - a.lat)
  let dLng := toRad (b.lng - a.lng)
  let h := Real.sin (dLat / 2) ^ 2 +
    Real.cos (toRad a.lat) * Real.cos (toRad b.lat) * Real.sin (dLng / 2) ^ 2
  3959 * (2 * atan2 (Real.sqrt h) (Real.sqrt (1 - h)))

lemma calculateDistance_eq_haversineSpec (p1 p2 : LatLng) :
    calculateDistance p1 p2 = haversineSpec p1 p2 := by
  unfold calculateDistance haversineSpec
  dsimp only
  have ha : Real.sin (toRad (p2.lat - p1.lat) / 2) * Real.sin (toRad (p2.lat - p1.lat) / 2) +
      Real.cos (toRad p1.lat) * Real.cos (toRad p2.lat) *
        Real.sin (toRad (p2.lng - p1.lng) / 2) * Real.sin (toRad (p2.lng - p1.lng) / 2) =
      Real.sin (toRad (p2.lat - p1.lat) / 2) ^ 2 +
        Real.cos (toRad p1.lat) * Real.cos (toRad p2.lat) *
          Real.sin (toRad (p2.lng - p1.lng) / 2) ^ 2 := by
    ring
  rw [ha]

/-- C7: the `distance` field of every output equals the haversine great-circle
distance (Earth radius 3959 miles) between the input location and the result's
own location, both as computed by the source's `calculateDistance` and in the
specification's formula; provider records carry no distance to copy from. -/
theorem searchResources_distance_computed (f : SearchFilters) (p : SearchProvider) :
    (searchResources f p).Forall
      (fun r => r.distance = calculateDistance f.location r.location ∧
        r.distance = haversineSpec f.location r.location) := by
  rw [List.forall_iff_forall_mem]
  intro r hr
  obtain ⟨c, _, t, _, hrt⟩ := mem_searchResources hr
  have h := (mem_processType hrt).2.2.2
  exact ⟨h, h.trans (calculateDistance_eq_haversineSpec _ _)⟩

/-- C10: every output of `searchResources` carries provenance
`Source.google_places`; the `curated` tag is never produced. -/
theorem searchResources_source_google_places (f : SearchFilters) (p : SearchProvider) :
    (searchResources f p).Forall (fun r => r.source = Source.google_places) := by
  rw [List.forall_iff_forall_mem]
  intro r hr
  obtain ⟨c, _, t, _, hrt⟩ := mem_searchResources hr
  exact (mem_processType hrt).2.2.1

/-- C2: the `searchResources` output has at most 10 entries and is ordered
ascending by distance (every consecutive pair is non-decreasing). -/
theorem searchResources_bounded_sorted (f : SearchFilters) (p : SearchProvider) :
    (searchResources f p).length ≤ 10 ∧
      List.Chain' (fun a b => a.distance ≤ b.distance) (searchResources f p) := by
  constructor
  · simp only [searchResources]
    exact List.length_take_le 10 _
  · simp only [searchResources]
    have hs := @List.sorted_mergeSort AggregatedResult distanceLE
      distanceLE_trans distanceLE_total
      (removeDuplicates (f.categories.flatMap
        (fun category => processCategory f (min (f.radius * 1609.34) 25000) p category)))
    have hp : (List.mergeSort (removeDuplicates (f.categories.flatMap
        (fun category => processCategory f (min (f.radius * 1609.34) 25000) p category)))
          distanceLE).Pairwise (fun a b => a.distance ≤ b.distance) := by
      refine hs.imp ?_
      intro a b hab
      simpa [distanceLE] using hab
    exact (List.Pairwise.sublist (List.take_sublist 10 _) hp).chain'

/-- The Deduplicator contract as stated in the specification: keep exactly the
first occurrence of each `placeId` (the whole record, no field merging), drop
every later record whose `placeId` matches an already-kept record, preserving
first-seen order. -/
def dedupeSpec : List AggregatedResult → List AggregatedResult
  | [] => []
  | r :: rs => r :: dedupeSpec (rs.filter (fun x => decide (x.placeId ≠ r.placeId)))
termination_by l => l.length
decreasing_by
  simp only [List.length_cons]
  exact Nat.lt_succ_of_le (List.length_filter_le _ _)

lemma dedupeSpec_cons (r : AggregatedResult) (rs : List AggregatedResult) :
    dedupeSpec (r :: rs) =
      r :: dedupeSpec (rs.filter (fun x => decide (x.placeId ≠ r.placeId))) := by
  rw [dedupeSpec.eq_def]

lemma removeDuplicatesAux_eq_dedupeSpec (xs : List AggregatedResult) (seen : List String) :
    removeDuplicatesAux seen xs =
      dedupeSpec (xs.filter (fun x => decide (x.placeId ∉ seen))) := by
  induction xs generalizing seen with
  | nil => simp [removeDuplicatesAux, dedupeSpec]
  | cons x xs ih =>
    rw [removeDuplicatesAux, List.filter_cons]
    by_cases hx : x.placeId ∈ seen
    · rw [if_pos hx, if_neg (show ¬(decide (x.placeId ∉ seen) = true) by simp [hx])]
      exact ih seen
    · rw [if_neg hx, if_pos (show decide (x.placeId ∉ seen) = true by simp [hx])]
      rw [dedupeSpec_cons, List.filter_filter]
      have hpred : (fun (y : AggregatedResult) =>
          decide (y.placeId ≠ x.placeId) && decide (y.placeId ∉ seen)) =
          (fun y => decide (y.placeId ∉ x.placeId :: seen)) := by
        funext y
        simp only [List.mem_cons, not_or]
        exact (Bool.decide_and _ _).symm
      rw [hpred, ← ih (x.placeId :: seen)]

lemma pairwise_removeDuplicatesAux (xs : List AggregatedResult) (seen : List String) :
    (removeDuplicatesAux seen xs).Pairwise (fun a b => a.placeId ≠ b.placeId) ∧
      ∀ r ∈ removeDuplicatesAux seen xs, r.placeId ∉ seen := by
  induction xs generalizing seen with
  | nil => exact ⟨List.Pairwise.nil, by simp [removeDuplicatesAux]⟩
  | cons x xs ih =>
    rw [removeDuplicatesAux]
    by_cases hx : x.placeId ∈ seen
    · rw [if_pos hx]
      exact ih seen
    · rw [if_neg hx]
      obtain ⟨hpair, havoid⟩ := ih (x.placeId :: seen)
      refine ⟨List.Pairwise.cons ?_ hpair, ?_⟩
      · intro y hy
        have := havoid y hy
        simp only [List.mem_cons, not_or] at this
        exact fun hcontra => this.1 hcontra.symm
      · intro r hr
        rcases List.mem_cons.mp hr with rfl | hr'
        · exact hx
        · have := havoid r hr'
          simp only [List.mem_cons, not_or] at this
          exact this.2

/-- C3: `removeDuplicates` equals the first-occurrence-wins deduplication of
the specification, and consequently no two entries of any `searchResources`
output share a `placeId`. -/
theorem removeDuplicates_first_occurrence (xs : List AggregatedResult)
    (f : SearchFilters) (p : SearchProvider) :
    removeDuplicates xs = dedupeSpec xs ∧
      (searchResources f p).Pairwise (fun a b => a.placeId ≠ b.placeId) := by
  constructor
  · rw [removeDuplicates, removeDuplicatesAux_eq_dedupeSpec]
    congr 1
    simp
  · have hpair := (pairwise_removeDuplicatesAux
      (f.categories.flatMap
        (fun category => processCategory f (min (f.radius * 1609.34) 25000) p category)) []).1
    have hsym : ∀ {x y : AggregatedResult},
        x.placeId ≠ y.placeId → y.placeId ≠ x.placeId := fun h => h.symm
    have hsorted := ((List.mergeSort_perm _ distanceLE).pairwise_iff hsym).mpr hpair
    simp only [searchResources]
    exact List.Pairwise.sublist (List.take_sublist 10 _) hsorted

lemma removeDuplicatesAux_eq_self (ys : List AggregatedResult) (seen : List String)
    (hpair : ys.Pairwise (fun a b => a.placeId ≠ b.placeId))
    (havoid : ∀ r ∈ ys, r.placeId ∉ seen) :
    removeDuplicatesAux seen ys = ys := by
  induction ys generalizing seen with
  | nil => rfl
  | cons y ys ih =>
    obtain ⟨hy, hpair2⟩ := List.pairwise_cons.mp hpair
    rw [removeDuplicatesAux, if_neg (havoid y (List.mem_cons_self y ys))]
    congr 1
    exact ih _ hpair2 (fun r hr => by
      simp only [List.mem_cons, not_or]
      exact ⟨(hy r hr).symm, havoid r (List.mem_cons_of_mem y hr)⟩)

/-- C9: `removeDuplicates` is idempotent: deduplicating an already
deduplicated list changes nothing. -/
theorem removeDuplicates_idempotent (xs : List AggregatedResult) :
    removeDuplicates (removeDuplicates xs) = removeDuplicates xs := by
  have hpair := (pairwise_removeDuplicatesAux xs []).1
  show removeDuplicatesAux [] (removeDuplicatesAux [] xs) = removeDuplicatesAux [] xs
  exact removeDuplicatesAux_eq_self _ [] hpair (by simp)

lemma processType_error (f : SearchFilters) (rm : ℝ) (e : ProviderError)
    (c t : String) :
    processType f rm (fun _ => Except.error e) c t = [] :=
  rfl

lemma processType_errToEmpty (f : SearchFilters) (rm : ℝ) (p : SearchProvider)
    (c t : String) :
    processType f rm
      (fun req => match p req with
        | Except.error _ => Except.ok []
        | Except.ok places => Except.ok places) c t =
      processType f rm p c t := by
  simp only [processType]
  generalize p (PlaceSearchRequest.mk f.location rm [t] (some aggregatorKeyword)) = res
  cases res with
  | error err => simp
  | ok places => rfl

/-- C5: a provider failure on one (category, placeType) query never escapes
`searchResources`: the run is equal to a run where every failing query simply
returns no records, and if every query fails the result is the empty list. -/
theorem searchResources_failure_tolerance (f : SearchFilters) (p : SearchProvider)
    (e : ProviderError) :
    searchResources f (fun _ => Except.error e) = [] ∧
      searchResources f p = searchResources f
        (fun req => match p req with
          | Except.error _ => Except.ok []
          | Except.ok places => Except.ok places) := by
  constructor
  · simp only [searchResources]
    have h1 : (f.categories.flatMap fun category =>
        processCategory f (min (f.radius * 1609.34) 25000)
          (fun _ => Except.error e) category) = [] := by
      rw [List.flatMap_eq_nil_iff]
      intro c _
      rw [processCategory, List.flatMap_eq_nil_iff]
      intro t _
      exact processType_error f _ e c t
    rw [h1]
    simp [removeDuplicates, removeDuplicatesAux]
  · simp only [searchResources]
    have h2 : (fun category => processCategory f (min (f.radius * 1609.34) 25000)
          (fun req => match p req with
            | Except.error _ => Except.ok []
            | Except.ok places => Except.ok places) category) =
        (fun category =>
          processCategory f (min (f.radius * 1609.34) 25000) p category) := by
      funext c
      rw [processCategory, processCategory]
      congr 1
      funext t
      exact processType_errToEmpty f _ p c t
    rw [h2]

lemma addIf (c : Prop) [Decidable c] (s k : ℤ) :
    (if c then s + k else s) = s + (if c then k else 0) := by
  split <;> simp

lemma subIf (c : Prop) [Decidable c] (s k : ℤ) :
    (if c then s - k else s) = s - (if c then k else 0) := by
  split <;> simp

/-- The scorer contract as stated in the specification: the score is the sum
of independent additive keyword bonuses over the lower-cased name, additive
type-tag bonuses over the joined lower-cased type tags, minus the fixed
commercial-chain and gas-station/convenience-store penalties. -/
def relevanceScoreSpec (place : ScoredRecord) : ℤ :=
  let name := place.name.toLower
  let types := typesString place.types
  (if strIncl name "down syndrome" || strIncl name "developmental disabilit" then (10 : ℤ) else 0)
    + (if strIncl name "special needs" || strIncl name "inclusion" then 8 else 0)
    + (if strIncl name "adaptive" || strIncl name "therapeutic" then 6 else 0)
    + (if strIncl name "children" || strIncl name "pediatric" then 4 else 0)
    + (if strIncl types "health" || strIncl types "doctor" || strIncl types "hospital" then 3 else 0)
    + (if strIncl types "school" || strIncl types "education" then 3 else 0)
    + (if strIncl types "community" then 2 else 0)
    - (if strIncl name "planet fitness" || strIncl name "la fitness" then 5 else 0)
    - (if strIncl name "mcdonalds" || strIncl name "starbucks" then 10 else 0)
    - (if strIncl types "gas_station" || strIncl types "convenience_store" then 5 else 0)

/-- C6: the sequentially accumulated scorer of the source equals the additive
sum-of-heuristics scorer stated in the specification, on every record. -/
theorem calculateRelevanceScore_eq_spec (place : ScoredRecord) :
    calculateRelevanceScore place = relevanceScoreSpec place := by
  unfold calculateRelevanceScore relevanceScoreSpec
  simp only [addIf, subIf]
  ring

/-- C8: every provider request issued by `searchResources` carries the meter
radius `min(radiusMiles × 1609.34, 25000)`, hence never more than 25,000 m,
whatever radius the caller asked for; and the whole search consults the
provider only on those requests. -/
theorem provider_radius_clamped (f : SearchFilters) :
    ((requestsOf f).Forall fun req =>
      req.radius = min (f.radius * 1609.34) 25000 ∧ req.radius ≤ 25000) ∧
      ∀ p q : SearchProvider, (∀ req ∈ requestsOf f, p req = q req) →
        searchResources f p = searchResources f q := by
  constructor
  · rw [List.forall_iff_forall_mem]
    intro req hreq
    rw [requestsOf, List.mem_flatMap] at hreq
    obtain ⟨c, hc, hreq⟩ := hreq
    rw [List.mem_map] at hreq
    obtain ⟨t, ht, rfl⟩ := hreq
    exact ⟨rfl, min_le_right _ _⟩
  · intro p q hagree
    simp only [searchResources]
    have h : (f.categories.flatMap fun category =>
        processCategory f (min (f.radius * 1609.34) 25000) p category) =
        (f.categories.flatMap fun category =>
          processCategory f (min (f.radius * 1609.34) 25000) q category) := by
      rw [List.flatMap_def, List.flatMap_def]
      congr 1
      apply List.map_congr_left
      intro c hc
      rw [processCategory, processCategory, List.flatMap_def, List.flatMap_def]
      congr 1
      apply List.map_congr_left
      intro t ht
      have hmem : PlaceSearchRequest.mk f.location (min (f.radius * 1609.34) 25000)
          [t] (some aggregatorKeyword) ∈ requestsOf f := by
        rw [requestsOf, List.mem_flatMap]
        exact ⟨c, hc, List.mem_map.mpr ⟨t, ht, rfl⟩⟩
      simp only [processType]
      rw [hagree _ hmem]
    rw [h]

/-- Witness for C8 at a concrete input: one category, radius 10 miles, a
provider that always succeeds with no records. -/
theorem provider_radius_clamped_witness :
    ((requestsOf (SearchFilters.mk (LatLng.mk 0 0) 10 ["medical"] none)).Forall fun req =>
      req.radius =
          min ((SearchFilters.mk (LatLng.mk 0 0) 10 ["medical"] none).radius * 1609.34) 25000 ∧
        req.radius ≤ 25000) ∧
      searchResources (SearchFilters.mk (LatLng.mk 0 0) 10 ["medical"] none)
          (fun _ => Except.ok []) =
        searchResources (SearchFilters.mk (LatLng.mk 0 0) 10 ["medical"] none)
          (fun _ => Except.ok []) :=
  ⟨(provider_radius_clamped (SearchFilters.mk (LatLng.mk 0 0) 10 ["medical"] none)).1,
    (provider_radius_clamped (SearchFilters.mk (LatLng.mk 0 0) 10 ["medical"] none)).2
      (fun _ => Except.ok []) (fun _ => Except.ok []) (fun _ _ => rfl)⟩
